import Mathlib

/-!
Verification of the post-management API of `letscopy` (server/routes/posts.js
together with the Mongoose `Post` schema in server/models/Post.js).

The embedding follows the source:
* `Post` mirrors the `postSchema` document (the persistence engine is treated,
  as in the spec, as an opaque store holding a list of documents; Mongo query
  objects built by the routes are embedded as `ListQuery` and evaluated by the
  store's documented matching semantics, with `$regex`/`RegExp` matching with
  the `i` option modelled as case-insensitive substring containment, the
  store-adapter behaviour the specification describes).
* `Cache`, `clearCache`, `cacheMiddleware` mirror the in-memory cache object
  at the top of posts.js; JS `Map` objects become functions `String → Option _`.
* Each route handler becomes a function from the pre-state (store + cache),
  the current time, the resolved caller and the request to a response and a
  post-state; a boolean records whether the store was queried, and a boolean
  parameter models whether the store call succeeds (the `catch` branches).
-/

namespace LetsCopy

/-- A stored post document, after `postSchema` (server/models/Post.js):
title, content, category (default "General"), tags, user (owner id),
plus the `timestamps: true` pair createdAt/updatedAt.  The Mongo `_id`
is the `id` field; `__v` is never exposed (`select('-__v')`) and is omitted. -/
structure Post where
  id : String
  title : String
  content : String
  category : String
  tags : List String
  user : String
  createdAt : Nat
  updatedAt : Nat
deriving Repr, DecidableEq

/-- JS `String.prototype.startsWith`, on the character lists of the strings. -/
def listStartsWith : List Char → List Char → Bool
  | _, [] => true
  | [], _ :: _ => false
  | c :: cs, p :: ps => c = p && listStartsWith cs ps

/-- JS `key.startsWith(prefix)` as used in `cache.clearCache`. -/
def jsStartsWith (s pre : String) : Bool :=
  listStartsWith s.data pre.data

/-- Contiguous-sublist test: does `needle` occur inside `hay`? -/
def listIsInfixOf (needle : List Char) : List Char → Bool
  | [] => needle.isEmpty
  | c :: cs => listStartsWith (c :: cs) needle || listIsInfixOf needle cs

/-- Case-insensitive containment: the store-adapter semantics of
`{ $regex: needle, $options: 'i' }` (and `new RegExp(needle, 'i')` inside
`$in`) for the metacharacter-free queries the spec describes: the needle is a
case-insensitive substring of the haystack. -/
def ciContains (hay needle : String) : Bool :=
  listIsInfixOf (needle.data.map Char.toLower) (hay.data.map Char.toLower)

/-- JS whitespace for `String.prototype.trim` (the characters that occur in
this API's inputs). -/
def isJsWhitespace (ch : Char) : Bool :=
  ch = ' ' || ch = '\t' || ch = '\n' || ch = '\r'

/-- Drop leading whitespace characters. -/
def dropLeadingWs : List Char → List Char
  | [] => []
  | ch :: cs => if isJsWhitespace ch then dropLeadingWs cs else ch :: cs

/-- JS `s.trim()`: remove leading and trailing whitespace. -/
def jsTrim (s : String) : String :=
  ⟨(dropLeadingWs (dropLeadingWs s.data.reverse).reverse)⟩

/-- JS `x || d` for an optional string (`undefined` and `''` are falsy),
as in `category: category || 'General'`. -/
def jsOrStr (c : Option String) (d : String) : String :=
  match c with
  | none => d
  | some s => if s = "" then d else s

/-- JS `x || d` for an optional array (`undefined` is falsy, any array is
truthy), as in `tags: tags || []`. -/
def jsOrList (t : Option (List String)) (d : List String) : List String :=
  match t with
  | none => d
  | some l => l

/-- A well-formed Mongo ObjectId as mongoose casts it from a string:
24 hexadecimal characters.  A malformed id makes the query throw a
`CastError` with `kind === 'ObjectId'`, which the routes turn into 400. -/
def validObjectId (s : String) : Bool :=
  s.length = 24 && s.data.all (fun c => c.isDigit || ('a' ≤ c && c ≤ 'f') || ('A' ≤ c && c ≤ 'F'))

/-! ### The list query (router.get('/'), lines 64–97)

The handler reads `category`, `tag`, `search` from `req.query` and builds a
Mongo query object incrementally.  An Express query parameter that is absent
is `undefined` and one supplied empty is `''`; both are falsy, and the handler
only ever tests the parameters for truthiness, so a parameter is embedded as a
`String` with `""` standing for an absent (or empty, equivalently) parameter. -/

/-- The Mongo query object built by the list handler: always `{ user }`,
optionally a `category` equality, a `tags: { $in: [tag] }` clause, and the
three-way `$or` search clause (represented by the search string itself). -/
structure ListQuery where
  user : String
  category : Option String
  tag : Option String
  search : Option String
deriving Repr, DecidableEq

/-- Lines 66–86: build the query from the request parameters. -/
def buildQuery (userId category tag search : String) : ListQuery :=
  { user := userId
    category := if category ≠ "" ∧ category ≠ "All" then some category else none
    tag := if tag ≠ "" then some tag else none
    search := if search ≠ "" then some search else none }

/-- Store-adapter evaluation of the query object on one document:
field equality for `user` and `category`, `$in` membership for the tag,
and the three-way `$or` of case-insensitive matches for the search. -/
def matchesQuery (q : ListQuery) (p : Post) : Bool :=
  p.user = q.user &&
  (match q.category with | none => true | some c => p.category = c) &&
  (match q.tag with | none => true | some t => p.tags.contains t) &&
  (match q.search with
   | none => true
   | some s => ciContains p.title s || ciContains p.content s || p.tags.any (fun t => ciContains t s))

/-- Insert into a list already sorted by `createdAt` descending. -/
def insertByCreatedDesc (p : Post) : List Post → List Post
  | [] => [p]
  | q :: qs => if q.createdAt ≤ p.createdAt then p :: q :: qs else q :: insertByCreatedDesc p qs

/-- Mongo `.sort({ createdAt: -1 })`: sort by creation time, newest first. -/
def sortByCreatedDesc : List Post → List Post
  | [] => []
  | p :: ps => insertByCreatedDesc p (sortByCreatedDesc ps)

/-- The query `Post.find(query).sort({ createdAt: -1 })` on a store holding `store`. -/
def listPosts (store : List Post) (userId category tag search : String) : List Post :=
  sortByCreatedDesc (store.filter (matchesQuery (buildQuery userId category tag search)))

/-! ### Validation (the express-validator chains on POST / and PUT /:id)

`body('title').trim().isLength({min:1,max:100})`, etc.  The `.trim()`
sanitizer rewrites the request body, so the handler afterwards sees the
trimmed values; `validationResult` collects every failed check.  `tags` is
typed as an array in the embedding, so its `isArray` check always passes. -/

/-- A request body for Create / Update.  `none` is an absent (`undefined`)
field; `optional()` skips validation exactly for those. -/
structure PostBody where
  title : String
  content : String
  category : Option String
  tags : Option (List String)
deriving Repr, DecidableEq

/-- The `.trim()` sanitizers applied to the body. -/
def sanitize (b : PostBody) : PostBody :=
  { b with title := jsTrim b.title, content := jsTrim b.content,
           category := b.category.map jsTrim }

/-- One entry of `errors.array()`. -/
structure FieldError where
  path : String
  msg : String
deriving Repr, DecidableEq

/-- The result of `validationResult(req)` after the four chains have run: the collected
list of field errors (empty iff the request is valid). -/
def validatePost (b : PostBody) : List FieldError :=
  (if 1 ≤ (jsTrim b.title).length ∧ (jsTrim b.title).length ≤ 100 then []
   else [⟨"title", "Title must be between 1 and 100 characters"⟩]) ++
  (if 1 ≤ (jsTrim b.content).length ∧ (jsTrim b.content).length ≤ 10000 then []
   else [⟨"content", "Content must be between 1 and 10000 characters"⟩]) ++
  (match b.category with
   | none => []
   | some c => if (jsTrim c).length ≤ 50 then []
               else [⟨"category", "Category cannot exceed 50 characters"⟩])

/-! ### The in-memory cache (posts.js lines 8–61) -/

/-- A JSON payload sent through `res.json`. -/
inductive Payload where
  | posts (ps : List Post)
  | strs (ss : List String)
  | post (p : Post)
  | msg (m : String)
  | invalid (message : String) (errors : List FieldError)
deriving Repr, DecidableEq

/-- An HTTP response: status code and JSON body. -/
structure Response where
  status : Nat
  body : Payload
deriving Repr, DecidableEq

/-- One cache entry: `{ data, timestamp }`. -/
structure CacheEntry where
  data : Payload
  timestamp : Nat
deriving Repr, DecidableEq

/-- The three `Map`s of the cache object, each a partial map from key. -/
structure Cache where
  categories : String → Option CacheEntry
  tags : String → Option CacheEntry
  posts : String → Option CacheEntry

/-- The empty cache. -/
def Cache.empty : Cache :=
  { categories := fun _ => none, tags := fun _ => none, posts := fun _ => none }

/-- The call `cache.clearCache(userId)` with a user id: delete every `posts` key
starting with `` `${userId}:` ``, the key `` `categories:${userId}` `` and the
key `` `tags:${userId}` ``. -/
def clearCacheUser (c : Cache) (userId : String) : Cache :=
  { posts := fun k => if jsStartsWith k (userId ++ ":") then none else c.posts k
    categories := fun k => if k = "categories:" ++ userId then none else c.categories k
    tags := fun k => if k = "tags:" ++ userId then none else c.tags k }

/-- The call `cache.clearCache()` with no user id: clear all three maps. -/
def clearCacheAll (_c : Cache) : Cache := Cache.empty

/-- The duration passed to `cacheMiddleware` on the list route (line 64). -/
def listCacheMs : Nat := 60000

/-- The expiry window of the categories/tags caches (lines 105, 130). -/
def aggCacheMs : Nat := 600000

/-- The key `` `${req.user._id}:${req.originalUrl}` `` used by `cacheMiddleware`. -/
def mkPostsKey (userId url : String) : String := userId ++ ":" ++ url

/-- Store an entry in the `posts` map (the wrapped `res.json` of
`cacheMiddleware`). -/
def cachePut (c : Cache) (key : String) (d : Payload) (now : Nat) : Cache :=
  { c with posts := fun k => if k = key then some ⟨d, now⟩ else c.posts k }

/-- The server state the routes act on: the document store (the collection of
Post documents) and the cache. -/
structure ServerState where
  store : List Post
  cache : Cache

/-! ### Route handlers

Each handler takes the pre-state, the current time `now` (`Date.now()`), the
resolved caller `userId` (`req.user._id`) and the request data, and returns
the response and post-state.  A `storeOk` flag models whether the awaited
store call succeeds (`false` drives the `catch` branch).  Read paths also
return a `Bool` that is `true` iff the store was queried. -/

/-- Cache-miss continuation of the list route: run the handler body under the
wrapped `res.json`, which stores whatever payload is sent — the post list on
success, the generic error body on failure — before sending it. -/
def listCompute (st : ServerState) (now : Nat) (key userId category tag search : String)
    (storeOk : Bool) : Response × ServerState × Bool :=
  if storeOk then
    let payload := Payload.posts (listPosts st.store userId category tag search)
    ({ status := 200, body := payload },
     { st with cache := cachePut st.cache key payload now }, true)
  else
    let payload := Payload.msg "Server error"
    ({ status := 500, body := payload },
     { st with cache := cachePut st.cache key payload now }, true)

/-- The route `router.get('/')` behind `cacheMiddleware(60000)` (lines 41–97): a fresh
cached entry is returned as-is through the unwrapped `res.json` (status 200,
no store query); otherwise the handler queries the store and the wrapped
`res.json` caches the payload. -/
def listHandler (st : ServerState) (now : Nat) (userId url category tag search : String)
    (storeOk : Bool) : Response × ServerState × Bool :=
  let key := mkPostsKey userId url
  match st.cache.posts key with
  | some e =>
    if now - e.timestamp < listCacheMs then
      ({ status := 200, body := e.data }, st, false)
    else
      listCompute st now key userId category tag search storeOk
  | none => listCompute st now key userId category tag search storeOk

/-- The store read `Post.distinct('category', { user })`. -/
def distinctCategories (store : List Post) (userId : String) : List String :=
  ((store.filter (fun p => p.user = userId)).map Post.category).dedup

/-- The store read `Post.distinct('tags', { user })` (flattened across tag arrays). -/
def distinctTags (store : List Post) (userId : String) : List String :=
  ((store.filter (fun p => p.user = userId)).map Post.tags).flatten.dedup

/-- Cache-miss continuation of the categories route: query the store, cache
and send the distinct list on success; on failure the `catch` answers
`res.json([])` — an empty array with status 200, nothing cached. -/
def categoriesCompute (st : ServerState) (now : Nat) (key userId : String) (storeOk : Bool) :
    Response × ServerState × Bool :=
  if storeOk then
    let result := Payload.strs (distinctCategories st.store userId)
    ({ status := 200, body := result },
     { st with cache :=
        { st.cache with categories := fun k => if k = key then some ⟨result, now⟩ else st.cache.categories k } },
     true)
  else
    ({ status := 200, body := Payload.strs [] }, st, true)

/-- The route `router.get('/categories')` (lines 100–122), with its 10-minute cache. -/
def categoriesHandler (st : ServerState) (now : Nat) (userId : String) (storeOk : Bool) :
    Response × ServerState × Bool :=
  let key := "categories:" ++ userId
  match st.cache.categories key with
  | some e =>
    if now - e.timestamp < aggCacheMs then
      ({ status := 200, body := e.data }, st, false)
    else
      categoriesCompute st now key userId storeOk
  | none => categoriesCompute st now key userId storeOk

/-- Cache-miss continuation of the tags route; same failure policy as the
categories route. -/
def tagsCompute (st : ServerState) (now : Nat) (key userId : String) (storeOk : Bool) :
    Response × ServerState × Bool :=
  if storeOk then
    let result := Payload.strs (distinctTags st.store userId)
    ({ status := 200, body := result },
     { st with cache :=
        { st.cache with tags := fun k => if k = key then some ⟨result, now⟩ else st.cache.tags k } },
     true)
  else
    ({ status := 200, body := Payload.strs [] }, st, true)

/-- The route `router.get('/tags')` (lines 125–147): same shape as categories. -/
def tagsHandler (st : ServerState) (now : Nat) (userId : String) (storeOk : Bool) :
    Response × ServerState × Bool :=
  let key := "tags:" ++ userId
  match st.cache.tags key with
  | some e =>
    if now - e.timestamp < aggCacheMs then
      ({ status := 200, body := e.data }, st, false)
    else
      tagsCompute st now key userId storeOk
  | none => tagsCompute st now key userId storeOk

/-- The query `Post.findOne({ _id: id, user: userId })`: the first document matching
both the id and the owner. -/
def findPost (store : List Post) (id userId : String) : Option Post :=
  store.find? (fun p => p.id = id && p.user = userId)

/-- The route `router.get('/:id')` (lines 150–169). -/
def getHandler (st : ServerState) (userId id : String) (storeOk : Bool) : Response :=
  if validObjectId id then
    if storeOk then
      match findPost st.store id userId with
      | some p => { status := 200, body := .post p }
      | none => { status := 404, body := .msg "Post not found" }
    else { status := 500, body := .msg "Server error" }
  else { status := 400, body := .msg "Invalid post ID" }

/-- The document `new Post({...})` built by the create route (lines 204–210):
the sanitized title and content, `category: category || 'General'`,
`tags: tags || []`, the caller as owner, and the `timestamps: true` stamps
assigned at save time.  The `postSchema` declares each tag element with
`trim: true` (models/Post.js lines 22–26), so mongoose's setter trims every
tag at document construction; the schema's 30-character tag maxlength is a
save-time validation whose failure surfaces through the `storeOk` flag. -/
def newPostDoc (now : Nat) (userId : String) (b : PostBody) (newId : String) : Post :=
  let sb := sanitize b
  { id := newId, title := sb.title, content := sb.content,
    category := jsOrStr sb.category "General", tags := (jsOrList sb.tags []).map jsTrim,
    user := userId, createdAt := now, updatedAt := now }

/-- The route `router.post('/')` (lines 172–222): validate, build the new Post, save
it, clear the caller's cache, 201 with the created document. -/
def createHandler (st : ServerState) (now : Nat) (userId : String) (b : PostBody)
    (newId : String) (storeOk : Bool) : Response × ServerState :=
  if validatePost b = [] then
    if storeOk then
      ({ status := 201, body := .post (newPostDoc now userId b newId) },
       { store := st.store ++ [newPostDoc now userId b newId],
         cache := clearCacheUser st.cache userId })
    else ({ status := 500, body := .msg "Server error" }, st)
  else ({ status := 400, body := .invalid "Validation failed" (validatePost b) }, st)

/-- Apply `f` to the first document matching `(id, userId)`. -/
def updateFirst (id userId : String) (f : Post → Post) : List Post → List Post
  | [] => []
  | p :: ps => if p.id = id && p.user = userId then f p :: ps
               else p :: updateFirst id userId f ps

/-- The field replacement of `findOneAndUpdate` (lines 257–269) together with
the `timestamps: true` refresh of `updatedAt`.  Mongoose applies the schema
setters to the update values (the route passes `runValidators: true`), so
each tag element is trimmed here exactly as on the create path. -/
def applyUpdate (b : PostBody) (now : Nat) (p : Post) : Post :=
  let sb := sanitize b
  { p with title := sb.title, content := sb.content,
           category := jsOrStr sb.category "General",
           tags := (jsOrList sb.tags []).map jsTrim,
           updatedAt := now }

/-- The route `router.put('/:id')` (lines 225–286): validate, `findOneAndUpdate` by
`(id, owner)` with `{ new: true }`, clear the caller's cache, 200 with the
updated document; 404 when no document matches. -/
def updateHandler (st : ServerState) (now : Nat) (userId id : String) (b : PostBody)
    (storeOk : Bool) : Response × ServerState :=
  if validatePost b = [] then
    if validObjectId id then
      if storeOk then
        match findPost st.store id userId with
        | some p0 =>
          ({ status := 200, body := .post (applyUpdate b now p0) },
           { store := updateFirst id userId (applyUpdate b now) st.store,
             cache := clearCacheUser st.cache userId })
        | none => ({ status := 404, body := .msg "Post not found" }, st)
      else ({ status := 500, body := .msg "Server error" }, st)
    else ({ status := 400, body := .msg "Invalid post ID" }, st)
  else ({ status := 400, body := .invalid "Validation failed" (validatePost b) }, st)

/-- Remove the first document matching `(id, userId)`. -/
def removeFirst (id userId : String) : List Post → List Post
  | [] => []
  | p :: ps => if p.id = id && p.user = userId then ps else p :: removeFirst id userId ps

/-- The route `router.delete('/:id')` (lines 289–311): `findOneAndDelete` by
`(id, owner)`, clear the caller's cache, 200 with a confirmation. -/
def deleteHandler (st : ServerState) (userId id : String) (storeOk : Bool) :
    Response × ServerState :=
  if validObjectId id then
    if storeOk then
      match findPost st.store id userId with
      | some _ =>
        ({ status := 200, body := .msg "Post deleted successfully" },
         { store := removeFirst id userId st.store, cache := clearCacheUser st.cache userId })
      | none => ({ status := 404, body := .msg "Post not found" }, st)
    else ({ status := 500, body := .msg "Server error" }, st)
  else ({ status := 400, body := .msg "Invalid post ID" }, st)

/-! ### Basic lemmas about the string helpers -/

theorem data_append (s t : String) : (s ++ t).data = s.data ++ t.data := by
  cases s; cases t; rfl

theorem listStartsWith_append_self (a b : List Char) :
    listStartsWith (a ++ b) a = true := by
  induction a with
  | nil => cases b <;> rfl
  | cons c cs ih => simp [listStartsWith, ih]

/-- Strings with equal character lists are equal. -/
theorem eq_of_data_eq {s t : String} (h : s.data = t.data) : s = t :=
  congrArg String.mk h

/-- A string with no colon is not in ambiguity with a different colon-free
string as the owner segment of a cache key: `a ++ ":"` is never a prefix of
`b ++ ":" ++ r` when `a ≠ b` and neither contains a colon. -/
theorem listStartsWith_colon_disjoint (a : List Char) : ∀ (b : List Char) (r : List Char),
    ':' ∉ a → ':' ∉ b → a ≠ b →
    listStartsWith (b ++ ':' :: r) (a ++ [':']) = false := by
  induction a with
  | nil =>
    intro b r _ hb hab
    cases b with
    | nil => exact absurd rfl hab
    | cons d bs =>
      simp only [List.nil_append, List.cons_append, listStartsWith]
      have hd : ¬(d = ':') := fun h => hb (by simp [h])
      simp [hd]
  | cons c as ih =>
    intro b r ha hab
    intro hne
    cases b with
    | nil =>
      simp only [List.nil_append, List.cons_append, listStartsWith]
      have hc : ¬(':' = c) := fun h => ha (by simp [h.symm])
      simp [hc]
    | cons d bs =>
      simp only [List.cons_append, listStartsWith]
      by_cases hcd : d = c
      · subst hcd
        have has : ':' ∉ as := fun h => ha (List.mem_cons_of_mem _ h)
        have hbs : ':' ∉ bs := fun h => hab (List.mem_cons_of_mem _ h)
        have hne2 : as ≠ bs := fun h => hne (by rw [h])
        simp [ih bs r has hbs hne2]
      · simp [hcd]

/-- A string is colon-free: the property ObjectId-valued owner ids enjoy. -/
def colonFree (s : String) : Prop := ':' ∉ s.data

/-- The caller's own cache keys are cleared. -/
theorem jsStartsWith_own_key (u url : String) :
    jsStartsWith (mkPostsKey u url) (u ++ ":") = true := by
  unfold jsStartsWith mkPostsKey
  simp only [data_append]
  have h := listStartsWith_append_self (u.data ++ ":".data) url.data
  simpa [List.append_assoc] using h

/-- Another owner's cache keys are not touched. -/
theorem jsStartsWith_other_key (u v url : String)
    (hu : colonFree u) (hv : colonFree v) (huv : u ≠ v) :
    jsStartsWith (mkPostsKey v url) (u ++ ":") = false := by
  unfold jsStartsWith mkPostsKey
  simp only [data_append]
  have hne : u.data ≠ v.data := fun h => huv (eq_of_data_eq h)
  have h := listStartsWith_colon_disjoint u.data v.data url.data hu hv hne
  simpa [List.append_assoc] using h

/-- The segment before the first colon is determined: two colon-free lists
followed by a colon that agree as prefixes of the same list are equal. -/
theorem append_colon_inj (a : List Char) : ∀ (b r s : List Char), ':' ∉ a → ':' ∉ b →
    a ++ ':' :: r = b ++ ':' :: s → a = b := by
  induction a with
  | nil =>
    intro b r s _ hb h
    cases b with
    | nil => rfl
    | cons d bs =>
      simp only [List.nil_append, List.cons_append, List.cons.injEq] at h
      exact absurd (h.1 ▸ List.mem_cons_self d bs) hb
  | cons c as ih =>
    intro b r s ha hb h
    cases b with
    | nil =>
      simp only [List.cons_append, List.nil_append, List.cons.injEq] at h
      exact absurd (h.1.symm ▸ List.mem_cons_self c as) ha
    | cons d bs =>
      simp only [List.cons_append, List.cons.injEq] at h
      have has : ':' ∉ as := fun hm => ha (List.mem_cons_of_mem _ hm)
      have hbs : ':' ∉ bs := fun hm => hb (List.mem_cons_of_mem _ hm)
      rw [h.1, ih bs r s has hbs h.2]

/-- Two colon-free owners producing the same cache key are equal. -/
theorem mkPostsKey_owner_inj (u v url url' : String)
    (hu : colonFree u) (hv : colonFree v) (h : mkPostsKey u url = mkPostsKey v url') :
    u = v := by
  unfold mkPostsKey at h
  have h2 := congrArg String.data h
  simp only [data_append] at h2
  have hdata : u.data ++ ':' :: url.data = v.data ++ ':' :: url'.data := by
    simpa [List.append_assoc] using h2
  exact eq_of_data_eq (append_colon_inj u.data v.data url.data url'.data hu hv hdata)

/-! ### Membership through sorting and filtering -/

theorem mem_insertByCreatedDesc (p q : Post) (l : List Post) :
    p ∈ insertByCreatedDesc q l ↔ p = q ∨ p ∈ l := by
  induction l with
  | nil => simp [insertByCreatedDesc]
  | cons x xs ih =>
    simp only [insertByCreatedDesc]
    by_cases h : x.createdAt ≤ q.createdAt
    · simp [h]
    · rw [if_neg h]
      simp only [List.mem_cons, ih]
      tauto

theorem mem_sortByCreatedDesc (p : Post) (l : List Post) :
    p ∈ sortByCreatedDesc l ↔ p ∈ l := by
  induction l with
  | nil => simp [sortByCreatedDesc]
  | cons x xs ih =>
    simp [sortByCreatedDesc, mem_insertByCreatedDesc, ih]

theorem mem_listPosts (store : List Post) (u c t s : String) (p : Post) :
    p ∈ listPosts store u c t s ↔
      p ∈ store ∧ matchesQuery (buildQuery u c t s) p = true := by
  unfold listPosts
  rw [mem_sortByCreatedDesc, List.mem_filter]

/-! ### The specification's filter semantics, in its own words

The spec states: the category filter applies only when present and not equal
to the sentinel "All"; the tag filter keeps posts whose tag sequence contains
the given value; the search filter keeps a post iff the query string is a
case-insensitive substring of its title OR its content OR any of its tags;
filters compose with logical AND and every returned post belongs to the
caller.  (A parameter is "present" when a non-empty value was supplied.) -/

/-- The spec's description of which posts a `List` call returns. -/
def specListMatch (u c t s : String) (p : Post) : Prop :=
  p.user = u ∧
  (c = "" ∨ c = "All" ∨ p.category = c) ∧
  (t = "" ∨ t ∈ p.tags) ∧
  (s = "" ∨ ciContains p.title s = true ∨ ciContains p.content s = true ∨
    ∃ tg ∈ p.tags, ciContains tg s = true)

theorem matchesQuery_iff_spec (u c t s : String) (p : Post) :
    matchesQuery (buildQuery u c t s) p = true ↔ specListMatch u c t s p := by
  unfold matchesQuery buildQuery specListMatch
  by_cases hc : c = ""
  · by_cases ht : t = "" <;> by_cases hs : s = "" <;>
      simp [hc, ht, hs, List.any_eq_true, and_assoc, or_assoc]
  · by_cases hAll : c = "All"
    · by_cases ht : t = "" <;> by_cases hs : s = "" <;>
        simp [hc, hAll, ht, hs, List.any_eq_true, and_assoc, or_assoc]
    · by_cases ht : t = "" <;> by_cases hs : s = "" <;>
        simp [hc, hAll, ht, hs, List.any_eq_true, and_assoc, or_assoc]

theorem user_of_mem_listPosts {store : List Post} {u c t s : String} {p : Post}
    (h : p ∈ listPosts store u c t s) : p.user = u :=
  ((matchesQuery_iff_spec u c t s p).mp ((mem_listPosts store u c t s p).mp h).2).1

/-! ### Soundness of the list cache with respect to ownership

Entries in the `posts` map are only ever created by the wrapped `res.json`
of `cacheMiddleware`, under the key `` `${userId}:${originalUrl}` `` of the
caller the list was computed for.  Consequently, in every reachable state a
cached post-list under a colon-free owner's key contains only that owner's
posts.  (Owner ids are Mongo ObjectIds — 24 hex characters — hence
colon-free, which makes the owner segment of a key unambiguous.) -/

/-- Every cached post-list under a colon-free owner's key holds only that
owner's posts. -/
def PostsCacheSound (c : Cache) : Prop :=
  ∀ (u url : String) (e : CacheEntry) (ps : List Post), colonFree u →
    c.posts (mkPostsKey u url) = some e → e.data = Payload.posts ps →
    ∀ p ∈ ps, p.user = u

theorem postsCacheSound_empty : PostsCacheSound Cache.empty := by
  intro u url e ps _ hkey _ _ _
  exact absurd hkey (by simp [Cache.empty])

theorem postsCacheSound_cachePut_posts {c : Cache} (h : PostsCacheSound c)
    (u0 url0 : String) (hu0 : colonFree u0) (store : List Post) (c0 t0 s0 : String) (now : Nat) :
    PostsCacheSound (cachePut c (mkPostsKey u0 url0)
      (Payload.posts (listPosts store u0 c0 t0 s0)) now) := by
  intro u url e ps hu hkey hdata p hp
  unfold cachePut at hkey
  simp only at hkey
  split at hkey
  · rename_i hk
    have hu0u : u = u0 := mkPostsKey_owner_inj u u0 url url0 hu hu0 hk
    have he : e = ⟨Payload.posts (listPosts store u0 c0 t0 s0), now⟩ := by
      injection hkey with h'; exact h'.symm
    rw [he] at hdata
    simp only [Payload.posts.injEq] at hdata
    rw [← hdata] at hp
    rw [hu0u]
    exact user_of_mem_listPosts hp
  · exact h u url e ps hu hkey hdata p hp

theorem postsCacheSound_cachePut_msg {c : Cache} (h : PostsCacheSound c)
    (key m : String) (now : Nat) :
    PostsCacheSound (cachePut c key (Payload.msg m) now) := by
  intro u url e ps hu hkey hdata p hp
  unfold cachePut at hkey
  simp only at hkey
  split at hkey
  · have he : e = ⟨Payload.msg m, now⟩ := by injection hkey with h'; exact h'.symm
    rw [he] at hdata
    simp at hdata
  · exact h u url e ps hu hkey hdata p hp

theorem postsCacheSound_clearCacheUser {c : Cache} (h : PostsCacheSound c) (u0 : String) :
    PostsCacheSound (clearCacheUser c u0) := by
  intro u url e ps hu hkey hdata p hp
  unfold clearCacheUser at hkey
  simp only at hkey
  split at hkey
  · exact absurd hkey (by simp)
  · exact h u url e ps hu hkey hdata p hp

theorem postsCacheSound_listCompute {st : ServerState} (hs : PostsCacheSound st.cache)
    (now : Nat) (u url c t s : String) (hu : colonFree u) (ok : Bool) :
    PostsCacheSound (listCompute st now (mkPostsKey u url) u c t s ok).2.1.cache := by
  unfold listCompute
  cases ok with
  | true =>
    simpa using postsCacheSound_cachePut_posts hs u url hu st.store c t s now
  | false =>
    simpa using postsCacheSound_cachePut_msg hs (mkPostsKey u url) "Server error" now

theorem postsCacheSound_listHandler {st : ServerState} (hs : PostsCacheSound st.cache)
    (now : Nat) (u url c t s : String) (hu : colonFree u) (ok : Bool) :
    PostsCacheSound (listHandler st now u url c t s ok).2.1.cache := by
  unfold listHandler
  simp only
  split
  · split
    · exact hs
    · exact postsCacheSound_listCompute hs now u url c t s hu ok
  · exact postsCacheSound_listCompute hs now u url c t s hu ok

theorem categoriesHandler_posts_map (st : ServerState) (now : Nat) (u : String) (ok : Bool) :
    (categoriesHandler st now u ok).2.1.cache.posts = st.cache.posts := by
  unfold categoriesHandler categoriesCompute
  simp only
  split
  · split
    · rfl
    · cases ok <;> rfl
  · cases ok <;> rfl

theorem tagsHandler_posts_map (st : ServerState) (now : Nat) (u : String) (ok : Bool) :
    (tagsHandler st now u ok).2.1.cache.posts = st.cache.posts := by
  unfold tagsHandler tagsCompute
  simp only
  split
  · split
    · rfl
    · cases ok <;> rfl
  · cases ok <;> rfl

theorem postsCacheSound_of_posts_map_eq {c c' : Cache} (h : c'.posts = c.posts)
    (hs : PostsCacheSound c) : PostsCacheSound c' := by
  intro u url e ps hu hkey hdata p hp
  rw [h] at hkey
  exact hs u url e ps hu hkey hdata p hp

theorem postsCacheSound_createHandler {st : ServerState} (hs : PostsCacheSound st.cache)
    (now : Nat) (u : String) (b : PostBody) (nid : String) (ok : Bool) :
    PostsCacheSound (createHandler st now u b nid ok).2.cache := by
  unfold createHandler
  split
  · cases ok with
    | true => exact postsCacheSound_clearCacheUser hs u
    | false => exact hs
  · exact hs

theorem postsCacheSound_updateHandler {st : ServerState} (hs : PostsCacheSound st.cache)
    (now : Nat) (u id : String) (b : PostBody) (ok : Bool) :
    PostsCacheSound (updateHandler st now u id b ok).2.cache := by
  unfold updateHandler
  repeat' split
  all_goals first
    | exact postsCacheSound_clearCacheUser hs u
    | exact hs

theorem postsCacheSound_deleteHandler {st : ServerState} (hs : PostsCacheSound st.cache)
    (u id : String) (ok : Bool) :
    PostsCacheSound (deleteHandler st u id ok).2.cache := by
  unfold deleteHandler
  repeat' split
  all_goals first
    | exact postsCacheSound_clearCacheUser hs u
    | exact hs

/-- One request handled by the server: any route, any arguments, any store
outcome; the caller id is an ObjectId and hence colon-free. -/
inductive Step : ServerState → ServerState → Prop where
  | list (st : ServerState) (now : Nat) (u url c t s : String) (ok : Bool)
      (hu : colonFree u) : Step st (listHandler st now u url c t s ok).2.1
  | categories (st : ServerState) (now : Nat) (u : String) (ok : Bool) :
      Step st (categoriesHandler st now u ok).2.1
  | tagsRoute (st : ServerState) (now : Nat) (u : String) (ok : Bool) :
      Step st (tagsHandler st now u ok).2.1
  | create (st : ServerState) (now : Nat) (u : String) (b : PostBody) (nid : String)
      (ok : Bool) : Step st (createHandler st now u b nid ok).2
  | update (st : ServerState) (now : Nat) (u id : String) (b : PostBody) (ok : Bool) :
      Step st (updateHandler st now u id b ok).2
  | delete (st : ServerState) (u id : String) (ok : Bool) :
      Step st (deleteHandler st u id ok).2

/-- States the server can be in: any store content, but a cache built up from
empty only by handling requests. -/
def Reachable (st : ServerState) : Prop :=
  ∃ store0 : List Post,
    Relation.ReflTransGen Step { store := store0, cache := Cache.empty } st

theorem postsCacheSound_step {st st' : ServerState} (h : Step st st')
    (hs : PostsCacheSound st.cache) : PostsCacheSound st'.cache := by
  cases h with
  | list now u url c t s ok hu => exact postsCacheSound_listHandler hs now u url c t s hu ok
  | categories now u ok =>
    exact postsCacheSound_of_posts_map_eq (categoriesHandler_posts_map st now u ok) hs
  | tagsRoute now u ok =>
    exact postsCacheSound_of_posts_map_eq (tagsHandler_posts_map st now u ok) hs
  | create now u b nid ok => exact postsCacheSound_createHandler hs now u b nid ok
  | update now u id b ok => exact postsCacheSound_updateHandler hs now u id b ok
  | delete u id ok => exact postsCacheSound_deleteHandler hs u id ok

theorem postsCacheSound_reachable {st : ServerState} (h : Reachable st) :
    PostsCacheSound st.cache := by
  obtain ⟨store0, htr⟩ := h
  induction htr with
  | refl => exact postsCacheSound_empty
  | tail _ hstep ih => exact postsCacheSound_step hstep ih

/-! ### Frame lemmas for mutations -/

theorem applyUpdate_user (b : PostBody) (now : Nat) (p : Post) :
    (applyUpdate b now p).user = p.user := rfl

theorem applyUpdate_id (b : PostBody) (now : Nat) (p : Post) :
    (applyUpdate b now p).id = p.id := rfl

theorem applyUpdate_createdAt (b : PostBody) (now : Nat) (p : Post) :
    (applyUpdate b now p).createdAt = p.createdAt := rfl

/-- An update scoped to owner `u` leaves the posts of any other owner `A`
in the store exactly as they were. -/
theorem filter_user_updateFirst (id u A : String) (b : PostBody) (now : Nat)
    (hAu : A ≠ u) : ∀ l : List Post,
    (updateFirst id u (applyUpdate b now) l).filter (fun q => q.user = A) =
      l.filter (fun q => q.user = A) := by
  intro l
  induction l with
  | nil => rfl
  | cons p ps ih =>
    unfold updateFirst
    by_cases hp : (p.id = id && p.user = u) = true
    · rw [if_pos hp]
      have hpu : p.user = u := of_decide_eq_true ((Bool.and_eq_true _ _).mp hp).2
      have hnotA : ¬(u = A) := fun h => hAu h.symm
      simp [List.filter_cons, applyUpdate_user, hpu, hnotA]
    · rw [if_neg hp]
      simp [List.filter_cons, ih]

/-- A delete scoped to owner `u` leaves the posts of any other owner `A`
in the store exactly as they were. -/
theorem filter_user_removeFirst (id u A : String) (hAu : A ≠ u) : ∀ l : List Post,
    (removeFirst id u l).filter (fun q => q.user = A) =
      l.filter (fun q => q.user = A) := by
  intro l
  induction l with
  | nil => rfl
  | cons p ps ih =>
    unfold removeFirst
    by_cases hp : (p.id = id && p.user = u) = true
    · rw [if_pos hp]
      have hpu : p.user = u := of_decide_eq_true ((Bool.and_eq_true _ _).mp hp).2
      have hnotA : ¬(u = A) := fun h => hAu h.symm
      simp [List.filter_cons, hpu, hnotA]
    · rw [if_neg hp]
      simp [List.filter_cons, ih]

/-! ### Lookup lemmas for the round trips -/

theorem findPost_user {store : List Post} {id u : String} {p : Post}
    (h : findPost store id u = some p) : p.user = u ∧ p.id = id := by
  unfold findPost at h
  have hsat := List.find?_some h
  have := (Bool.and_eq_true _ _).mp hsat
  exact ⟨of_decide_eq_true this.2, of_decide_eq_true this.1⟩

/-- A freshly assigned id is found right after the save, and it is the new
document that is found. -/
theorem findPost_append_fresh (store : List Post) (p : Post) (u : String)
    (hfresh : ∀ q ∈ store, q.id ≠ p.id) (hu : p.user = u) :
    findPost (store ++ [p]) p.id u = some p := by
  induction store with
  | nil => simp [findPost, List.find?, hu]
  | cons q qs ih =>
    have hq : ¬(q.id = p.id) := hfresh q (List.mem_cons_self q qs)
    unfold findPost
    rw [List.cons_append, List.find?_cons_of_neg _ (by simp [hq])]
    exact ih fun r hr => hfresh r (List.mem_cons_of_mem _ hr)

/-- Mongoose `findOneAndUpdate` updates exactly the document `findOne` would find:
after the update, looking the pair `(id, owner)` up again yields the updated
document. -/
theorem findPost_updateFirst (id u : String) (f : Post → Post)
    (hfid : ∀ p, (f p).id = p.id) (hfuser : ∀ p, (f p).user = p.user) :
    ∀ (l : List Post) (p0 : Post), findPost l id u = some p0 →
      findPost (updateFirst id u f l) id u = some (f p0) := by
  intro l
  induction l with
  | nil => intro p0 h; exact absurd h (by simp [findPost])
  | cons q qs ih =>
    intro p0 h
    unfold findPost at h
    unfold updateFirst
    by_cases hq : (q.id = id && q.user = u) = true
    · rw [if_pos hq]
      rw [List.find?_cons_of_pos (p := fun r => decide (r.id = id) && decide (r.user = u)) qs hq] at h
      injection h with h0
      have hcond : ((f q).id = id && (f q).user = u) = true := by
        have hpair := (Bool.and_eq_true _ _).mp hq
        simp [hfid, hfuser, of_decide_eq_true hpair.1, of_decide_eq_true hpair.2]
      unfold findPost
      rw [List.find?_cons_of_pos (p := fun r => decide (r.id = id) && decide (r.user = u)) qs hcond, h0]
    · rw [if_neg hq]
      rw [List.find?_cons_of_neg (p := fun r => decide (r.id = id) && decide (r.user = u)) qs hq] at h
      unfold findPost
      rw [List.find?_cons_of_neg (p := fun r => decide (r.id = id) && decide (r.user = u))
        (updateFirst id u f qs) hq]
      exact ih p0 h

/-! ### What each handler's response can contain -/

/-- A 200 body of the single-post route is the post `findOne` found. -/
theorem getHandler_found {st : ServerState} {u id : String} {ok : Bool} {q : Post}
    (h : (getHandler st u id ok).body = Payload.post q) :
    findPost st.store id u = some q := by
  unfold getHandler at h
  split at h
  · split at h
    · split at h
      · rename_i p' heq
        simp only at h
        simp only [Payload.post.injEq] at h
        rw [← h]
        exact heq
      · simp at h
    · simp at h
  · simp at h

/-- An update's 200 body is the updated version of the post `findOne` found. -/
theorem updateHandler_found {st : ServerState} {now : Nat} {u id : String} {b : PostBody}
    {ok : Bool} {q : Post}
    (h : (updateHandler st now u id b ok).1.body = Payload.post q) :
    ∃ p0, findPost st.store id u = some p0 ∧ q = applyUpdate b now p0 := by
  unfold updateHandler at h
  split at h
  · split at h
    · split at h
      · split at h
        · rename_i p0 heq
          simp only at h
          simp only [Payload.post.injEq] at h
          exact ⟨p0, heq, h.symm⟩
        · simp at h
      · simp at h
    · simp at h
  · simp at h

/-- Updates executed as `u` only ever rewrite the store through
`updateFirst id u`. -/
theorem updateHandler_store (st : ServerState) (now : Nat) (u id : String) (b : PostBody)
    (ok : Bool) :
    (updateHandler st now u id b ok).2.store = st.store ∨
    (updateHandler st now u id b ok).2.store =
      updateFirst id u (applyUpdate b now) st.store := by
  unfold updateHandler
  repeat' split
  all_goals simp

/-- Deletes executed as `u` only ever rewrite the store through
`removeFirst id u`. -/
theorem deleteHandler_store (st : ServerState) (u id : String) (ok : Bool) :
    (deleteHandler st u id ok).2.store = st.store ∨
    (deleteHandler st u id ok).2.store = removeFirst id u st.store := by
  unfold deleteHandler
  repeat' split
  all_goals simp

/-- Every post in a list response served to a colon-free caller — from the
cache or from the store — belongs to that caller, provided the cache is
ownership-sound. -/
theorem listHandler_posts_body {st : ServerState} {now : Nat} {u url c t s : String}
    {ok : Bool} {ps : List Post} (hsound : PostsCacheSound st.cache) (hu : colonFree u)
    (h : (listHandler st now u url c t s ok).1.body = Payload.posts ps) :
    ∀ p ∈ ps, p.user = u := by
  unfold listHandler at h
  simp only at h
  split at h
  · rename_i e hkey
    split at h
    · simp only at h
      exact hsound u url e ps hu hkey h
    · unfold listCompute at h
      split at h
      · simp only [Payload.posts.injEq] at h
        intro p hp
        rw [← h] at hp
        exact user_of_mem_listPosts hp
      · simp at h
  · unfold listCompute at h
    split at h
    · simp only [Payload.posts.injEq] at h
      intro p hp
      rw [← h] at hp
      exact user_of_mem_listPosts hp
    · simp at h

/-! ### Cache behaviour of the list route and of mutations -/

/-- A fresh cached entry is served as-is: status 200, no store query, no
state change. -/
theorem listHandler_hit (st : ServerState) (t2 : Nat) (u url c t s : String) (ok : Bool)
    (e : CacheEntry) (hkey : st.cache.posts (mkPostsKey u url) = some e)
    (hfresh : t2 - e.timestamp < listCacheMs) :
    listHandler st t2 u url c t s ok = ({ status := 200, body := e.data }, st, false) := by
  unfold listHandler
  simp only [hkey]
  rw [if_pos hfresh]

/-- Whenever the list route reaches the store, the payload it answers with —
post list or error body alike — is cached under the caller's key with the
current timestamp. -/
theorem listHandler_caches (st : ServerState) (t1 : Nat) (u url c t s : String) (ok : Bool)
    (hq : (listHandler st t1 u url c t s ok).2.2 = true) :
    (listHandler st t1 u url c t s ok).2.1.cache.posts (mkPostsKey u url) =
      some ⟨(listHandler st t1 u url c t s ok).1.body, t1⟩ := by
  unfold listHandler at hq ⊢
  simp only at hq ⊢
  cases hkey : st.cache.posts (mkPostsKey u url) with
  | none =>
    simp only [hkey] at hq ⊢
    unfold listCompute
    cases ok with
    | true => simp [cachePut]
    | false => simp [cachePut]
  | some e =>
    simp only [hkey] at hq ⊢
    by_cases hfresh : t1 - e.timestamp < listCacheMs
    · rw [if_pos hfresh] at hq
      simp at hq
    · rw [if_neg hfresh] at hq ⊢
      unfold listCompute
      cases ok with
      | true => simp [cachePut]
      | false => simp [cachePut]

/-- A failing store query on the list route produces the generic 500 error
response. -/
theorem listHandler_fail (st : ServerState) (t1 : Nat) (u url c t s : String)
    (hq : (listHandler st t1 u url c t s false).2.2 = true) :
    (listHandler st t1 u url c t s false).1 =
      { status := 500, body := Payload.msg "Server error" } := by
  unfold listHandler at hq ⊢
  simp only at hq ⊢
  cases hkey : st.cache.posts (mkPostsKey u url) with
  | none =>
    simp only [hkey]
    unfold listCompute
    simp
  | some e =>
    simp only [hkey] at hq ⊢
    by_cases hfresh : t1 - e.timestamp < listCacheMs
    · rw [if_pos hfresh] at hq
      simp at hq
    · rw [if_neg hfresh]
      unfold listCompute
      simp

/-- With no cached entry under the caller's key, the list route queries the
store. -/
theorem listHandler_queries_of_no_entry (st : ServerState) (now : Nat)
    (u url c t s : String) (ok : Bool)
    (hkey : st.cache.posts (mkPostsKey u url) = none) :
    (listHandler st now u url c t s ok).2.2 = true := by
  unfold listHandler
  simp only [hkey]
  unfold listCompute
  cases ok <;> simp

/-- Clearing via `clearCache(userId)` removes the caller's own list-cache entries. -/
theorem clearCacheUser_own (c : Cache) (u url : String) :
    (clearCacheUser c u).posts (mkPostsKey u url) = none := by
  unfold clearCacheUser
  simp [jsStartsWith_own_key]

/-- A successful create clears the caller's cache. -/
theorem createHandler_cache_eq (st : ServerState) (now : Nat) (u : String) (b : PostBody)
    (nid : String) (hval : validatePost b = []) :
    (createHandler st now u b nid true).2.cache = clearCacheUser st.cache u := by
  unfold createHandler
  rw [if_pos hval]
  rfl

/-- The successful update, in full: response and post-state. -/
theorem updateHandler_success (st : ServerState) (now : Nat) (u id : String) (b : PostBody)
    (p0 : Post) (hfind : findPost st.store id u = some p0)
    (hval : validatePost b = []) (hid : validObjectId id = true) :
    updateHandler st now u id b true =
      ({ status := 200, body := Payload.post (applyUpdate b now p0) },
       { store := updateFirst id u (applyUpdate b now) st.store,
         cache := clearCacheUser st.cache u }) := by
  unfold updateHandler
  rw [if_pos hval, if_pos hid]
  simp only [hfind]
  rfl

/-- The successful delete, in full: response and post-state. -/
theorem deleteHandler_success (st : ServerState) (u id : String) (p0 : Post)
    (hfind : findPost st.store id u = some p0) (hid : validObjectId id = true) :
    deleteHandler st u id true =
      ({ status := 200, body := Payload.msg "Post deleted successfully" },
       { store := removeFirst id u st.store, cache := clearCacheUser st.cache u }) := by
  unfold deleteHandler
  rw [if_pos hid]
  simp only [hfind]
  rfl

/-- Only a successful update answers 200, and it clears the caller's cache. -/
theorem updateHandler_cache_of_success (st : ServerState) (now : Nat) (u id : String)
    (b : PostBody) (ok : Bool) (h : (updateHandler st now u id b ok).1.status = 200) :
    (updateHandler st now u id b ok).2.cache = clearCacheUser st.cache u := by
  unfold updateHandler at h ⊢
  by_cases hval : validatePost b = []
  · rw [if_pos hval] at h ⊢
    by_cases hid : validObjectId id = true
    · rw [if_pos hid] at h ⊢
      cases ok with
      | true =>
        cases hfp : findPost st.store id u with
        | some p0 => simp [hfp]
        | none => simp [hfp] at h
      | false => simp at h
    · rw [if_neg hid] at h
      simp at h
  · rw [if_neg hval] at h
    simp at h

/-- Only a successful delete answers 200, and it clears the caller's cache. -/
theorem deleteHandler_cache_of_success (st : ServerState) (u id : String) (ok : Bool)
    (h : (deleteHandler st u id ok).1.status = 200) :
    (deleteHandler st u id ok).2.cache = clearCacheUser st.cache u := by
  unfold deleteHandler at h ⊢
  by_cases hid : validObjectId id = true
  · rw [if_pos hid] at h ⊢
    cases ok with
    | true =>
      cases hfp : findPost st.store id u with
      | some p0 => simp [hfp]
      | none => simp [hfp] at h
    | false => simp at h
  · rw [if_neg hid] at h
    simp at h

/-! ### Sample data for concrete instantiations -/

/-- A well-formed ObjectId for examples. -/
def oidA : String := "aaaaaaaaaaaaaaaaaaaaaaaa"

/-- A second, distinct well-formed ObjectId for examples. -/
def oidB : String := "bbbbbbbbbbbbbbbbbbbbbbbb"

/-- A post owned by the example user `"a1"`. -/
def postA : Post :=
  { id := oidA, title := "Alpha", content := "Hello World", category := "General",
    tags := ["errand"], user := "a1", createdAt := 1, updatedAt := 1 }

/-- A post owned by the example user `"b2"`. -/
def postB : Post :=
  { id := oidB, title := "Beta", content := "Buy milk", category := "Work",
    tags := ["work"], user := "b2", createdAt := 2, updatedAt := 2 }

/-! ### The claims -/

/-- C1: Owner isolation.  For distinct owners A and B, a Post owned by A is
never returned by a List (whether served from the store or from any reachable
cache state), never returned by Get or Update, and never modified or deleted
by an Update or Delete executed with B as the resolved caller, regardless of
the filter values or id supplied. -/
theorem C1_owner_isolation (A B : String) (hAB : A ≠ B) (hB : colonFree B) :
    (∀ (st : ServerState) (now : Nat) (url c t s : String) (ok : Bool) (ps : List Post)
        (p : Post), Reachable st →
        (listHandler st now B url c t s ok).1.body = Payload.posts ps →
        p ∈ ps → p.user = B ∧ p.user ≠ A) ∧
    (∀ (st : ServerState) (id : String) (ok : Bool) (p : Post),
        p.user = A → (getHandler st B id ok).body ≠ Payload.post p) ∧
    (∀ (st : ServerState) (now : Nat) (id : String) (b : PostBody) (ok : Bool) (p : Post),
        p.user = A → (updateHandler st now B id b ok).1.body ≠ Payload.post p) ∧
    (∀ (st : ServerState) (now : Nat) (id : String) (b : PostBody) (ok : Bool),
        ((updateHandler st now B id b ok).2.store.filter (fun q => q.user = A)) =
          st.store.filter (fun q => q.user = A)) ∧
    (∀ (st : ServerState) (id : String) (ok : Bool),
        ((deleteHandler st B id ok).2.store.filter (fun q => q.user = A)) =
          st.store.filter (fun q => q.user = A)) := by
  refine ⟨?_, ?_, ?_, ?_, ?_⟩
  · intro st now url c t s ok ps p hreach hbody hp
    have hsound := postsCacheSound_reachable hreach
    have huser := listHandler_posts_body hsound hB hbody p hp
    exact ⟨huser, fun hc => hAB (hc.symm.trans huser)⟩
  · intro st id ok p hpA hbody
    have hfind := getHandler_found hbody
    have huser := (findPost_user hfind).1
    exact hAB (hpA.symm.trans huser)
  · intro st now id b ok p hpA hbody
    obtain ⟨p0, hfind, hq⟩ := updateHandler_found hbody
    have h0 := (findPost_user hfind).1
    have huser : p.user = B := by rw [hq, applyUpdate_user, h0]
    exact hAB (hpA.symm.trans huser)
  · intro st now id b ok
    rcases updateHandler_store st now B id b ok with h | h
    · rw [h]
    · rw [h, filter_user_updateFirst id B A b now hAB]
  · intro st id ok
    rcases deleteHandler_store st B id ok with h | h
    · rw [h]
    · rw [h, filter_user_removeFirst id B A hAB]

theorem C1_owner_isolation_witness :
    (postB.user = "b2" ∧ postB.user ≠ "a1") ∧
    (getHandler { store := [postA, postB], cache := Cache.empty } "b2" oidA true).body ≠
      Payload.post postA ∧
    (updateHandler { store := [postA, postB], cache := Cache.empty } 9 "b2" oidA
      { title := "x", content := "y", category := none, tags := none } true).1.body ≠
      Payload.post postA ∧
    ((updateHandler { store := [postA, postB], cache := Cache.empty } 9 "b2" oidA
        { title := "x", content := "y", category := none, tags := none } true).2.store.filter
      (fun q => q.user = "a1")) =
      ([postA, postB].filter (fun q => q.user = "a1")) ∧
    ((deleteHandler { store := [postA, postB], cache := Cache.empty } "b2" oidA true).2.store.filter
      (fun q => q.user = "a1")) =
      ([postA, postB].filter (fun q => q.user = "a1")) := by
  obtain ⟨h1, h2, h3, h4, h5⟩ := C1_owner_isolation "a1" "b2" (by decide)
    (by unfold colonFree; decide)
  have hreach : Reachable { store := [postA, postB], cache := Cache.empty } :=
    ⟨[postA, postB], Relation.ReflTransGen.refl⟩
  refine ⟨?_, ?_, ?_, ?_, ?_⟩
  · exact h1 { store := [postA, postB], cache := Cache.empty } 7 "/api/posts" "" "" "" true
      [postB] postB hreach (by decide) (by decide)
  · exact h2 { store := [postA, postB], cache := Cache.empty } oidA true postA (by decide)
  · exact h3 { store := [postA, postB], cache := Cache.empty } 9 oidA
      { title := "x", content := "y", category := none, tags := none } true postA (by decide)
  · exact h4 { store := [postA, postB], cache := Cache.empty } 9 oidA
      { title := "x", content := "y", category := none, tags := none } true
  · exact h5 { store := [postA, postB], cache := Cache.empty } oidA true

/-- C2: List filter semantics.  A post is in the List result iff it is in the
store, owned by the caller, and satisfies every present filter: the category
filter applies only when present and different from the sentinel "All" (so
category="All" equals no category filter), the tag filter requires the tag
sequence to contain the value, and the search filter requires the query to be
a case-insensitive substring of the title OR the content OR some tag; the
filters compose with logical AND. -/
theorem C2_list_filter_semantics :
    (∀ (store : List Post) (u c t s : String) (p : Post),
        p ∈ listPosts store u c t s ↔ p ∈ store ∧ specListMatch u c t s p) ∧
    (∀ (store : List Post) (u t s : String),
        listPosts store u "All" t s = listPosts store u "" t s) ∧
    (∀ (st : ServerState) (now : Nat) (u url c t s : String),
        st.cache.posts (mkPostsKey u url) = none →
        (listHandler st now u url c t s true).1.body =
          Payload.posts (listPosts st.store u c t s)) := by
  refine ⟨?_, ?_, ?_⟩
  · intro store u c t s p
    rw [mem_listPosts, matchesQuery_iff_spec]
  · intro store u t s
    have h1 : buildQuery u "All" t s = buildQuery u "" t s := by
      unfold buildQuery
      simp
    unfold listPosts
    rw [h1]
  · intro st now u url c t s hkey
    unfold listHandler
    simp only [hkey]
    unfold listCompute
    simp

theorem C2_list_filter_semantics_witness :
    (listHandler { store := [postA], cache := Cache.empty } 0 "a1" "/api/posts" "" "" ""
        true).1.body =
      Payload.posts (listPosts [postA] "a1" "" "" "") :=
  C2_list_filter_semantics.2.2 { store := [postA], cache := Cache.empty } 0 "a1"
    "/api/posts" "" "" "" rfl

/-- C3: Cache reads and invalidations.  (a) If a List call queried the store,
an identical List call by the same owner within the 60000 ms window returns
the same payload without a store query.  (b) A successful Create, Update, or
Delete by the owner removes the cached entry for every one of that owner's
list keys, so a subsequent List queries the store.  (c) The aggregate
(category/tag) caches use a longer expiry window (600000 ms) than the list
cache (60000 ms). -/
theorem C3_cache_expiry_and_invalidation :
    (∀ (st : ServerState) (t1 t2 : Nat) (u url c t s : String) (ok1 ok2 : Bool),
        (listHandler st t1 u url c t s ok1).2.2 = true → t1 ≤ t2 →
        t2 - t1 < listCacheMs →
        (listHandler (listHandler st t1 u url c t s ok1).2.1 t2 u url c t s ok2).1.body =
          (listHandler st t1 u url c t s ok1).1.body ∧
        (listHandler (listHandler st t1 u url c t s ok1).2.1 t2 u url c t s ok2).2.2 =
          false) ∧
    (∀ (st : ServerState) (now : Nat) (u : String) (b : PostBody) (nid : String),
        validatePost b = [] →
        ∀ (url : String),
          (createHandler st now u b nid true).2.cache.posts (mkPostsKey u url) = none ∧
          ∀ (t2 : Nat) (c t s : String) (ok : Bool),
            (listHandler (createHandler st now u b nid true).2 t2 u url c t s ok).2.2 =
              true) ∧
    (∀ (st : ServerState) (now : Nat) (u id : String) (b : PostBody) (ok : Bool),
        (updateHandler st now u id b ok).1.status = 200 →
        ∀ (url : String),
          (updateHandler st now u id b ok).2.cache.posts (mkPostsKey u url) = none ∧
          ∀ (t2 : Nat) (c t s : String) (ok2 : Bool),
            (listHandler (updateHandler st now u id b ok).2 t2 u url c t s ok2).2.2 =
              true) ∧
    (∀ (st : ServerState) (u id : String) (ok : Bool),
        (deleteHandler st u id ok).1.status = 200 →
        ∀ (url : String),
          (deleteHandler st u id ok).2.cache.posts (mkPostsKey u url) = none ∧
          ∀ (t2 : Nat) (c t s : String) (ok2 : Bool),
            (listHandler (deleteHandler st u id ok).2 t2 u url c t s ok2).2.2 = true) ∧
    (listCacheMs = 60000 ∧ aggCacheMs = 600000 ∧ listCacheMs < aggCacheMs) := by
  refine ⟨?_, ?_, ?_, ?_, rfl, rfl, by norm_num [listCacheMs, aggCacheMs]⟩
  · intro st t1 t2 u url c t s ok1 ok2 hq _ hwin
    have hent := listHandler_caches st t1 u url c t s ok1 hq
    have hhit := listHandler_hit (listHandler st t1 u url c t s ok1).2.1 t2 u url c t s ok2
      ⟨(listHandler st t1 u url c t s ok1).1.body, t1⟩ hent hwin
    rw [hhit]
    exact ⟨rfl, rfl⟩
  · intro st now u b nid hval url
    have hc := createHandler_cache_eq st now u b nid hval
    have hnone : (createHandler st now u b nid true).2.cache.posts (mkPostsKey u url) =
        none := by rw [hc]; exact clearCacheUser_own st.cache u url
    exact ⟨hnone, fun t2 c t s ok =>
      listHandler_queries_of_no_entry _ t2 u url c t s ok hnone⟩
  · intro st now u id b ok h200 url
    have hc := updateHandler_cache_of_success st now u id b ok h200
    have hnone : (updateHandler st now u id b ok).2.cache.posts (mkPostsKey u url) =
        none := by rw [hc]; exact clearCacheUser_own st.cache u url
    exact ⟨hnone, fun t2 c t s ok2 =>
      listHandler_queries_of_no_entry _ t2 u url c t s ok2 hnone⟩
  · intro st u id ok h200 url
    have hc := deleteHandler_cache_of_success st u id ok h200
    have hnone : (deleteHandler st u id ok).2.cache.posts (mkPostsKey u url) = none := by
      rw [hc]; exact clearCacheUser_own st.cache u url
    exact ⟨hnone, fun t2 c t s ok2 =>
      listHandler_queries_of_no_entry _ t2 u url c t s ok2 hnone⟩

theorem C3_cache_expiry_and_invalidation_witness :
    ((listHandler (listHandler { store := [postA], cache := Cache.empty } 0 "a1" "/api/posts"
        "" "" "" true).2.1 10 "a1" "/api/posts" "" "" "" true).1.body =
      (listHandler { store := [postA], cache := Cache.empty } 0 "a1" "/api/posts"
        "" "" "" true).1.body ∧
      (listHandler (listHandler { store := [postA], cache := Cache.empty } 0 "a1" "/api/posts"
        "" "" "" true).2.1 10 "a1" "/api/posts" "" "" "" true).2.2 = false) ∧
    ((createHandler { store := [postA], cache := Cache.empty } 5 "a1"
        { title := "T", content := "C", category := none, tags := none } oidB
        true).2.cache.posts (mkPostsKey "a1" "/api/posts") = none) ∧
    ((updateHandler { store := [postA], cache := Cache.empty } 5 "a1" oidA
        { title := "T", content := "C", category := none, tags := none }
        true).2.cache.posts (mkPostsKey "a1" "/api/posts") = none) ∧
    ((deleteHandler { store := [postA], cache := Cache.empty } "a1" oidA
        true).2.cache.posts (mkPostsKey "a1" "/api/posts") = none) := by
  obtain ⟨ha, hb, hu, hd, _⟩ := C3_cache_expiry_and_invalidation
  refine ⟨?_, ?_, ?_, ?_⟩
  · exact ha { store := [postA], cache := Cache.empty } 0 10 "a1" "/api/posts" "" "" ""
      true true (by decide) (by decide) (by decide)
  · exact (hb { store := [postA], cache := Cache.empty } 5 "a1"
      { title := "T", content := "C", category := none, tags := none } oidB (by decide)
      "/api/posts").1
  · exact (hu { store := [postA], cache := Cache.empty } 5 "a1" oidA
      { title := "T", content := "C", category := none, tags := none } true (by decide)
      "/api/posts").1
  · exact (hd { store := [postA], cache := Cache.empty } "a1" oidA true (by decide)
      "/api/posts").1

/-- C9 (implicit): the cache middleware stores whatever payload is sent,
including the generic error body of a failed List; an identical List by the
same owner within the 60000 ms window is then answered from cache with that
stored error payload and a 200 status, without querying the store. -/
theorem C9_error_payload_cached (st : ServerState) (t1 t2 : Nat) (u url c t s : String)
    (ok2 : Bool) (hq : (listHandler st t1 u url c t s false).2.2 = true)
    (h12 : t1 ≤ t2) (hwin : t2 - t1 < listCacheMs) :
    (listHandler st t1 u url c t s false).1 =
      { status := 500, body := Payload.msg "Server error" } ∧
    listHandler (listHandler st t1 u url c t s false).2.1 t2 u url c t s ok2 =
      ({ status := 200, body := Payload.msg "Server error" },
       (listHandler st t1 u url c t s false).2.1, false) := by
  have hfail := listHandler_fail st t1 u url c t s hq
  refine ⟨hfail, ?_⟩
  have hent := listHandler_caches st t1 u url c t s false hq
  rw [hfail] at hent
  exact listHandler_hit (listHandler st t1 u url c t s false).2.1 t2 u url c t s ok2
    ⟨Payload.msg "Server error", t1⟩ hent hwin

theorem C9_error_payload_cached_witness :
    (listHandler { store := [postA], cache := Cache.empty } 0 "a1" "/api/posts"
        "" "" "" false).1 =
      { status := 500, body := Payload.msg "Server error" } ∧
    listHandler (listHandler { store := [postA], cache := Cache.empty } 0 "a1" "/api/posts"
        "" "" "" false).2.1 10 "a1" "/api/posts" "" "" "" true =
      ({ status := 200, body := Payload.msg "Server error" },
       (listHandler { store := [postA], cache := Cache.empty } 0 "a1" "/api/posts"
        "" "" "" false).2.1, false) :=
  C9_error_payload_cached { store := [postA], cache := Cache.empty } 0 10 "a1" "/api/posts"
    "" "" "" true (by decide) (by decide) (by decide)

/-- C4 fails as stated: the valid create request with title `" a "`,
category `""` and tags `[" x "]` is persisted with the trimmed title `"a"`,
the defaulted category `"General"` and the schema-trimmed tags `["x"]`, so
the Post returned by Create-then-Get is not equal to the request on title,
category or tags. -/
theorem C4_roundtrip_counterexample :
    validatePost { title := " a ", content := "c", category := some "", tags := some [" x "] } =
      [] ∧
    (getHandler (createHandler { store := [], cache := Cache.empty } 5 "a1"
        { title := " a ", content := "c", category := some "", tags := some [" x "] }
        oidA true).2 "a1" oidA true).body =
      Payload.post { id := oidA, title := "a", content := "c", category := "General",
                     tags := ["x"], user := "a1", createdAt := 5, updatedAt := 5 } ∧
    ¬(("a" : String) = " a ") ∧ ¬(("General" : String) = "") ∧
    ¬((["x"] : List String) = [" x "]) := by
  decide

/-- C4 (amended): for every valid create request, Create then Get returns the
same Post in both responses; its title and content are the trimmed request
values, its category is the trimmed request category when that is non-empty
and "General" otherwise (also when omitted), its tags are the request tags
with each element trimmed (empty when omitted), and its owner and both
timestamps are server-assigned. -/
theorem C4_create_get_roundtrip (st : ServerState) (now : Nat) (u : String) (b : PostBody)
    (nid : String) (hval : validatePost b = []) (hid : validObjectId nid = true)
    (hfresh : ∀ q ∈ st.store, q.id ≠ nid) :
    (createHandler st now u b nid true).1 =
      { status := 201, body := Payload.post (newPostDoc now u b nid) } ∧
    (getHandler (createHandler st now u b nid true).2 u nid true).body =
      Payload.post (newPostDoc now u b nid) ∧
    (newPostDoc now u b nid).title = jsTrim b.title ∧
    (newPostDoc now u b nid).content = jsTrim b.content ∧
    (newPostDoc now u b nid).category = jsOrStr (b.category.map jsTrim) "General" ∧
    (newPostDoc now u b nid).tags = (jsOrList b.tags []).map jsTrim ∧
    (newPostDoc now u b nid).user = u ∧
    (newPostDoc now u b nid).createdAt = now ∧
    (newPostDoc now u b nid).updatedAt = now := by
  have hcreate : createHandler st now u b nid true =
      ({ status := 201, body := Payload.post (newPostDoc now u b nid) },
       { store := st.store ++ [newPostDoc now u b nid],
         cache := clearCacheUser st.cache u }) := by
    unfold createHandler
    rw [if_pos hval]
    rfl
  refine ⟨by rw [hcreate], ?_, rfl, rfl, rfl, rfl, rfl, rfl, rfl⟩
  rw [hcreate]
  have hfind : findPost (st.store ++ [newPostDoc now u b nid]) nid u =
      some (newPostDoc now u b nid) :=
    findPost_append_fresh st.store (newPostDoc now u b nid) u hfresh rfl
  unfold getHandler
  rw [if_pos hid]
  simp [hfind]

theorem C4_create_get_roundtrip_witness :
    (createHandler { store := [], cache := Cache.empty } 5 "a1"
        { title := "Note", content := "Buy milk", category := some "Work",
          tags := some ["errand"] } oidA true).1 =
      { status := 201, body := Payload.post (newPostDoc 5 "a1"
        { title := "Note", content := "Buy milk", category := some "Work",
          tags := some ["errand"] } oidA) } ∧
    (getHandler (createHandler { store := [], cache := Cache.empty } 5 "a1"
        { title := "Note", content := "Buy milk", category := some "Work",
          tags := some ["errand"] } oidA true).2 "a1" oidA true).body =
      Payload.post (newPostDoc 5 "a1"
        { title := "Note", content := "Buy milk", category := some "Work",
          tags := some ["errand"] } oidA) := by
  obtain ⟨h1, h2, _⟩ := C4_create_get_roundtrip { store := [], cache := Cache.empty } 5 "a1"
    { title := "Note", content := "Buy milk", category := some "Work",
      tags := some ["errand"] } oidA (by decide) (by decide) (by decide)
  exact ⟨h1, h2⟩

/-- C5: Update frame.  A successful Update replaces exactly title, content,
category and tags and refreshes the modified timestamp; the owner, the id and
the created timestamp are unchanged, the store is rewritten only through
`updateFirst`, and a subsequent Get returns the updated Post. -/
theorem C5_update_frame (st : ServerState) (now : Nat) (u id : String) (b : PostBody)
    (p0 : Post) (hfind : findPost st.store id u = some p0)
    (hval : validatePost b = []) (hid : validObjectId id = true) :
    (updateHandler st now u id b true).1 =
      { status := 200, body := Payload.post (applyUpdate b now p0) } ∧
    (updateHandler st now u id b true).2.store =
      updateFirst id u (applyUpdate b now) st.store ∧
    (getHandler (updateHandler st now u id b true).2 u id true).body =
      Payload.post (applyUpdate b now p0) ∧
    (applyUpdate b now p0).user = p0.user ∧
    (applyUpdate b now p0).createdAt = p0.createdAt ∧
    (applyUpdate b now p0).id = p0.id ∧
    (applyUpdate b now p0).updatedAt = now ∧
    (applyUpdate b now p0).title = jsTrim b.title ∧
    (applyUpdate b now p0).content = jsTrim b.content ∧
    (applyUpdate b now p0).category = jsOrStr (b.category.map jsTrim) "General" ∧
    (applyUpdate b now p0).tags = (jsOrList b.tags []).map jsTrim := by
  have hsucc := updateHandler_success st now u id b p0 hfind hval hid
  refine ⟨by rw [hsucc], by rw [hsucc], ?_, rfl, rfl, rfl, rfl, rfl, rfl, rfl, rfl⟩
  rw [hsucc]
  have hfind2 : findPost (updateFirst id u (applyUpdate b now) st.store) id u =
      some (applyUpdate b now p0) :=
    findPost_updateFirst id u (applyUpdate b now) (fun _ => rfl) (fun _ => rfl)
      st.store p0 hfind
  unfold getHandler
  rw [if_pos hid]
  simp [hfind2]

theorem C5_update_frame_witness :
    (updateHandler { store := [postA], cache := Cache.empty } 9 "a1" oidA
        { title := "New", content := "Text", category := some "Work", tags := some [] }
        true).1 =
      { status := 200, body := Payload.post (applyUpdate
        { title := "New", content := "Text", category := some "Work", tags := some [] }
        9 postA) } ∧
    (applyUpdate { title := "New", content := "Text", category := some "Work", tags := some [] }
        9 postA).user = postA.user ∧
    (applyUpdate { title := "New", content := "Text", category := some "Work", tags := some [] }
        9 postA).createdAt = postA.createdAt := by
  obtain ⟨h1, _, _, h4, h5, _⟩ :=
    C5_update_frame { store := [postA], cache := Cache.empty } 9 "a1" oidA
      { title := "New", content := "Text", category := some "Work", tags := some [] }
      postA (by decide) (by decide) (by decide)
  exact ⟨h1, h4, h5⟩

theorem string_append_left_cancel {a b c : String} (h : a ++ b = a ++ c) : b = c := by
  have h2 := congrArg String.data h
  simp only [data_append] at h2
  exact eq_of_data_eq (List.append_cancel_left h2)

/-- C6: Invalidation scoping.  `clearCache(owner)` — run after each
successful Create, Update and Delete — removes every cache entry of that
owner in all three classes (list, categories, tags) and leaves every entry of
any other owner unchanged. -/
theorem C6_invalidation_scoping (c : Cache) (A B : String) (hA : colonFree A)
    (hB : colonFree B) (hAB : A ≠ B) :
    (∀ url, (clearCacheUser c A).posts (mkPostsKey A url) = none) ∧
    (clearCacheUser c A).categories ("categories:" ++ A) = none ∧
    (clearCacheUser c A).tags ("tags:" ++ A) = none ∧
    (∀ url, (clearCacheUser c A).posts (mkPostsKey B url) = c.posts (mkPostsKey B url)) ∧
    (clearCacheUser c A).categories ("categories:" ++ B) =
      c.categories ("categories:" ++ B) ∧
    (clearCacheUser c A).tags ("tags:" ++ B) = c.tags ("tags:" ++ B) ∧
    (∀ (st : ServerState) (now : Nat) (b : PostBody) (nid : String), validatePost b = [] →
        (createHandler st now A b nid true).2.cache = clearCacheUser st.cache A) ∧
    (∀ (st : ServerState) (now : Nat) (id : String) (b : PostBody) (ok : Bool),
        (updateHandler st now A id b ok).1.status = 200 →
        (updateHandler st now A id b ok).2.cache = clearCacheUser st.cache A) ∧
    (∀ (st : ServerState) (id : String) (ok : Bool),
        (deleteHandler st A id ok).1.status = 200 →
        (deleteHandler st A id ok).2.cache = clearCacheUser st.cache A) := by
  refine ⟨fun url => clearCacheUser_own c A url, ?_, ?_, ?_, ?_, ?_,
    fun st now b nid hval => createHandler_cache_eq st now A b nid hval,
    fun st now id b ok h => updateHandler_cache_of_success st now A id b ok h,
    fun st id ok h => deleteHandler_cache_of_success st A id ok h⟩
  · unfold clearCacheUser
    simp
  · unfold clearCacheUser
    simp
  · intro url
    unfold clearCacheUser
    simp [jsStartsWith_other_key A B url hA hB hAB]
  · unfold clearCacheUser
    have hne : ¬("categories:" ++ B = "categories:" ++ A) :=
      fun h => hAB (string_append_left_cancel h).symm
    simp [hne]
  · unfold clearCacheUser
    have hne : ¬("tags:" ++ B = "tags:" ++ A) :=
      fun h => hAB (string_append_left_cancel h).symm
    simp [hne]

theorem C6_invalidation_scoping_witness :
    (clearCacheUser (cachePut Cache.empty (mkPostsKey "b2" "/x") (Payload.msg "m") 3)
        "a1").posts (mkPostsKey "b2" "/x") =
      (cachePut Cache.empty (mkPostsKey "b2" "/x") (Payload.msg "m") 3).posts
        (mkPostsKey "b2" "/x") ∧
    (clearCacheUser (cachePut Cache.empty (mkPostsKey "b2" "/x") (Payload.msg "m") 3)
        "a1").posts (mkPostsKey "a1" "/y") = none := by
  obtain ⟨h1, _, _, h4, _⟩ :=
    C6_invalidation_scoping (cachePut Cache.empty (mkPostsKey "b2" "/x") (Payload.msg "m") 3)
      "a1" "b2" (by unfold colonFree; decide) (by unfold colonFree; decide) (by decide)
  exact ⟨h4 "/x", h1 "/y"⟩

/-- C7: Aggregate-read failure policy.  If the store read behind the
categories or tags route fails (on a cache miss), the route answers an empty
list with status 200 and caches nothing, so the caller cannot tell "no data"
from "read failed". -/
theorem C7_aggregate_read_failure (st : ServerState) (now : Nat) (u : String)
    (hc : st.cache.categories ("categories:" ++ u) = none)
    (ht : st.cache.tags ("tags:" ++ u) = none) :
    categoriesHandler st now u false =
      ({ status := 200, body := Payload.strs [] }, st, true) ∧
    tagsHandler st now u false = ({ status := 200, body := Payload.strs [] }, st, true) := by
  constructor
  · unfold categoriesHandler
    simp only [hc]
    unfold categoriesCompute
    simp
  · unfold tagsHandler
    simp only [ht]
    unfold tagsCompute
    simp

theorem C7_aggregate_read_failure_witness :
    categoriesHandler { store := [postA], cache := Cache.empty } 4 "a1" false =
      ({ status := 200, body := Payload.strs [] },
       { store := [postA], cache := Cache.empty }, true) ∧
    tagsHandler { store := [postA], cache := Cache.empty } 4 "a1" false =
      ({ status := 200, body := Payload.strs [] },
       { store := [postA], cache := Cache.empty }, true) :=
  C7_aggregate_read_failure { store := [postA], cache := Cache.empty } 4 "a1" rfl rfl

/-- C8: Validation aggregation.  A body violating several field constraints
at once is rejected with a single 400 response carrying the full list of
field errors — both the title error and the content error appear in it. -/
theorem C8_validation_errors_aggregated (b : PostBody)
    (hT : ¬(1 ≤ (jsTrim b.title).length ∧ (jsTrim b.title).length ≤ 100))
    (hC : ¬(1 ≤ (jsTrim b.content).length ∧ (jsTrim b.content).length ≤ 10000)) :
    (⟨"title", "Title must be between 1 and 100 characters"⟩ : FieldError) ∈
      validatePost b ∧
    (⟨"content", "Content must be between 1 and 10000 characters"⟩ : FieldError) ∈
      validatePost b ∧
    (∀ (st : ServerState) (now : Nat) (u nid : String) (ok : Bool),
      (createHandler st now u b nid ok).1 =
        { status := 400, body := Payload.invalid "Validation failed" (validatePost b) }) ∧
    (∀ (st : ServerState) (now : Nat) (u id : String) (ok : Bool),
      (updateHandler st now u id b ok).1 =
        { status := 400, body := Payload.invalid "Validation failed" (validatePost b) }) := by
  have hne : validatePost b ≠ [] := by
    unfold validatePost
    rw [if_neg hT]
    simp
  refine ⟨?_, ?_, ?_, ?_⟩
  · unfold validatePost
    rw [if_neg hT]
    simp
  · unfold validatePost
    rw [if_neg hT, if_neg hC]
    simp
  · intro st now u nid ok
    unfold createHandler
    rw [if_neg hne]
  · intro st now u id ok
    unfold updateHandler
    rw [if_neg hne]

theorem C8_validation_errors_aggregated_witness :
    (⟨"title", "Title must be between 1 and 100 characters"⟩ : FieldError) ∈
      validatePost { title := "", content := "", category := none, tags := none } ∧
    (⟨"content", "Content must be between 1 and 10000 characters"⟩ : FieldError) ∈
      validatePost { title := "", content := "", category := none, tags := none } ∧
    (createHandler { store := [], cache := Cache.empty } 0 "a1"
        { title := "", content := "", category := none, tags := none } oidA true).1 =
      { status := 400, body := Payload.invalid "Validation failed" (validatePost
        { title := "", content := "", category := none, tags := none }) } := by
  obtain ⟨h1, h2, h3, _⟩ := C8_validation_errors_aggregated
    { title := "", content := "", category := none, tags := none } (by decide) (by decide)
  exact ⟨h1, h2, h3 { store := [], cache := Cache.empty } 0 "a1" oidA true⟩

/-- C10 (implicit): an Update whose body omits category (or supplies the
empty string) stores "General" instead of keeping the previous category, and
an Update omitting tags stores the empty sequence instead of the previous
tags. -/
theorem C10_update_overwrites_defaults (st : ServerState) (now : Nat) (u id : String)
    (b : PostBody) (p0 : Post) (hfind : findPost st.store id u = some p0)
    (hval : validatePost b = []) (hid : validObjectId id = true) :
    (updateHandler st now u id b true).1 =
      { status := 200, body := Payload.post (applyUpdate b now p0) } ∧
    ((b.category = none ∨ b.category = some "") →
      (applyUpdate b now p0).category = "General") ∧
    (b.tags = none → (applyUpdate b now p0).tags = []) := by
  have hsucc := updateHandler_success st now u id b p0 hfind hval hid
  refine ⟨by rw [hsucc], ?_, ?_⟩
  · rintro (hcat | hcat) <;>
      simp [applyUpdate, sanitize, jsOrStr, hcat, show jsTrim "" = "" from rfl]
  · intro htags
    simp [applyUpdate, sanitize, jsOrList, htags]

theorem C10_update_overwrites_defaults_witness :
    (updateHandler { store := [postA], cache := Cache.empty } 9 "a1" oidA
        { title := "t", content := "c", category := some "", tags := none } true).1 =
      { status := 200, body := Payload.post (applyUpdate
        { title := "t", content := "c", category := some "", tags := none } 9 postA) } ∧
    (applyUpdate { title := "t", content := "c", category := some "", tags := none }
        9 postA).category = "General" ∧
    (applyUpdate { title := "t", content := "c", category := some "", tags := none }
        9 postA).tags = [] := by
  obtain ⟨h1, h2, h3⟩ := C10_update_overwrites_defaults
    { store := [postA], cache := Cache.empty } 9 "a1" oidA
    { title := "t", content := "c", category := some "", tags := none } postA
    (by decide) (by decide) (by decide)
  exact ⟨h1, h2 (Or.inr rfl), h3 rfl⟩

end LetsCopy
